import Mathlib

/-
Verification development for the FAB attribute-evaluation script
(src/code/evaluate_final_3hangye_v2.py).

The script's pure functions are shallowly embedded as executable Lean
definitions over `String` / `List String`.  A pandas cell is modelled as
`Option String` (`none` = a missing/NaN cell).  The external LLM call is
modelled by an oracle function passed as an explicit parameter, and the
retry loop of `llm_check` is modelled over an explicit sequence of
attempt outcomes.
-/

/-- Python whitespace test used by `str.strip`: ASCII whitespace
(space, tab, newline, carriage return, vertical tab, form feed) and the
ideographic space U+3000. -/
def isPySpace (c : Char) : Bool :=
  c == ' ' || c == '\t' || c == '\n' || c == '\r' ||
  c == Char.ofNat 11 || c == Char.ofNat 12 || c == Char.ofNat 0x3000

/-- Python `str.strip()`: drop leading and trailing whitespace. -/
def pyStrip (s : String) : String :=
  ⟨((s.data.dropWhile isPySpace).reverse.dropWhile isPySpace).reverse⟩

/-- Python `s.replace(a, b)` for single characters (the source only
replaces the full-width comma by the ASCII comma). -/
def pyReplace (s : String) (a b : Char) : String :=
  ⟨s.data.map (fun c => if c == a then b else c)⟩

/-- Python `s.split(sep)` for a one-character separator, on char lists:
every field is kept, including empty ones (`"".split(',') == ['']`). -/
def splitOnChar (sep : Char) : List Char → List (List Char)
  | [] => [[]]
  | c :: cs =>
    if c == sep then [] :: splitOnChar sep cs
    else
      match splitOnChar sep cs with
      | [] => [[c]]
      | h :: t => (c :: h) :: t

/-- Python `s.split(sep)` for a one-character separator, on strings. -/
def pySplit (sep : Char) (s : String) : List String :=
  (splitOnChar sep s.data).map (fun l => ⟨l⟩)

/-- `startsWithB pat l` = `l` starts with `pat` (helper for substring
containment). -/
def startsWithB : List Char → List Char → Bool
  | [], _ => true
  | _ :: _, [] => false
  | a :: as, b :: bs => a == b && startsWithB as bs

/-- `containsB pat l` = `pat` occurs as a contiguous sublist of `l`. -/
def containsB (pat : List Char) : List Char → Bool
  | [] => startsWithB pat []
  | c :: rest => startsWithB pat (c :: rest) || containsB pat rest

/-- Python `pat in s` (substring containment) for strings. -/
def pyIn (pat s : String) : Bool :=
  containsB pat.data s.data

/-- `parse_f_attribute_string` from the source (label-side F cells):
comma split (accepting the full-width comma), per-item strip, drop items
equal to `''`/`'无'`/`'nan'`, and for items containing a colon keep
`item.split(colon)[1].strip()`, trying the full-width colon first.  The
source's initial guard `pd.isna(f_str) or not f_str or f_str == '无' or
f_str == '' or f_str == 'nan'` is modelled with `none` for the NaN case
and the same string comparisons (`not f_str` duplicates `== ''`). -/
def parse_f_attribute_string (cell : Option String) : List String :=
  match cell with
  | none => []
  | some f0 =>
    if f0 == "" || f0 == "无" || f0 == "nan" then []
    else
      let f := pyStrip f0
      let items := (pySplit ',' (pyReplace f '，' ',')).map pyStrip
      items.filterMap (fun item =>
        if item != "" && item != "无" && item != "nan" then
          if pyIn "：" item then some (pyStrip (List.getD (pySplit '：' item) 1 ""))
          else if pyIn ":" item then some (pyStrip (List.getD (pySplit ':' item) 1 ""))
          else some item
        else none)

/-- `parse_pred_f_attribute` from the source (prediction-side F cells):
like the label-side parser but only the ASCII colon is treated as the
key/value separator. -/
def parse_pred_f_attribute (cell : Option String) : List String :=
  match cell with
  | none => []
  | some f0 =>
    if f0 == "" || f0 == "无" || f0 == "nan" then []
    else
      let f := pyStrip f0
      let items := (pySplit ',' (pyReplace f '，' ',')).map pyStrip
      items.filterMap (fun item =>
        if item != "" && item != "无" && item != "nan" then
          if pyIn ":" item then some (pyStrip (List.getD (pySplit ':' item) 1 ""))
          else some item
        else none)

/-- `parse_ab_attribute` from the source (A/B cells, both sides):
comma split (accepting the full-width comma), per-item strip, keep
non-empty items different from `'nan'` verbatim (note: unlike the F
parsers, items equal to `'无'` are kept). -/
def parse_ab_attribute (cell : Option String) : List String :=
  match cell with
  | none => []
  | some s0 =>
    if s0 == "" || s0 == "无" || s0 == "nan" then []
    else
      let s := pyReplace s0 '，' ','
      (pySplit ',' s).filterMap (fun item =>
        let t := pyStrip item
        if t != "" && t != "nan" then some t else none)

/-- The `TARGET_INDUSTRIES` allow-list of tracked segments. -/
def TARGET_INDUSTRIES : List String := ["健身中心", "台球", "运动培训"]

/-- One input row: the segment column plus the three label-side and
three prediction-side attribute cells (a cell is `none` when NaN). -/
structure Record where
  category : String
  F : Option String
  A : Option String
  B : Option String
  pred_F : Option String
  pred_A : Option String
  pred_B : Option String
deriving DecidableEq

/-- One entry of a record's `llm_judge_results` list: the origin tag
(`'type'` key), the candidate string and the raw oracle response. -/
structure Consultation where
  type : String
  value : String
  llm_response : String
deriving DecidableEq

/-- The backoff chosen inside the retry loop of `llm_check` (source
lines 109-118): a message containing `'429'`, `'频率'` or `'限制'` is
treated as a rate limit and waits 2 seconds; any other error also waits
2 seconds. -/
def backoffWait (errMsg : String) : Nat :=
  if pyIn "429" errMsg || pyIn "频率" errMsg || pyIn "限制" errMsg then 2 else 2

/-- `max_retries` of `llm_check` (the source always uses the default). -/
def MAX_RETRIES : Nat := 10

/-- The retry loop of `llm_check` over an explicit list of attempt
outcomes (`.ok reply` = the API call returned `reply`, `.error msg` = it
raised with message `msg`).  Returns the final result together with the
list of backoff waits performed; the `[]` case is unreachable for a
positive retry budget (Python would fall off the loop). -/
def llm_check_go : List (Except String String) → String × List Nat
  | [] => ("error", [])
  | Except.ok reply :: _ => (reply, [])
  | [Except.error _] => ("error", [])
  | Except.error msg :: o :: rest =>
    let p := llm_check_go (o :: rest)
    (p.1, backoffWait msg :: p.2)

/-- `llm_check` with the source's `max_retries = 10`: run the retry loop
over the first `MAX_RETRIES` attempt outcomes. -/
def llm_check (outcome : Nat → Except String String) : String × List Nat :=
  llm_check_go ((List.range MAX_RETRIES).map outcome)

/-- One origin category of stage 1: for every item of `items` with no
exact match in `zhuguan ++ keguan`, consult the oracle and log the raw
response under the origin tag `ty` (source loops at lines 309-384; the
oracle receives the stringified combined list). -/
def consultList (oracle : String → List String → String) (ty : String)
    (items zhuguan keguan : List String) : List Consultation :=
  items.filterMap (fun v =>
    if v ∈ zhuguan ∨ v ∈ keguan then none
    else some { type := ty, value := v, llm_response := oracle v (zhuguan ++ keguan) })

/-- Stage 1 (`stage_1_llm_judgment`) restricted to a single row: the
`llm_judge_results` list it stores for that row.  Rows outside
`TARGET_INDUSTRIES` and rows with all six parsed lists empty are
skipped (their log stays empty). -/
def stage_1_row (oracle : String → List String → String) (r : Record) :
    List Consultation :=
  let industry := pyStrip r.category
  if industry ∈ TARGET_INDUSTRIES then
    let label_f_list := parse_f_attribute_string r.F
    let label_a_list := parse_ab_attribute r.A
    let label_b_list := parse_ab_attribute r.B
    let predict_f_list := parse_pred_f_attribute r.pred_F
    let predict_a_list := parse_ab_attribute r.pred_A
    let predict_b_list := parse_ab_attribute r.pred_B
    if label_f_list = [] ∧ label_a_list = [] ∧ label_b_list = [] ∧
        predict_f_list = [] ∧ predict_a_list = [] ∧ predict_b_list = [] then []
    else
      let zhuguan_label_list := label_a_list ++ label_b_list
      let keguan_label_list := label_f_list
      let zhuguan_predict_list := predict_a_list ++ predict_b_list
      let keguan_predict_list := predict_f_list
      consultList oracle "predict_a" predict_a_list zhuguan_label_list keguan_label_list ++
      consultList oracle "predict_b" predict_b_list zhuguan_label_list keguan_label_list ++
      consultList oracle "predict_f" predict_f_list zhuguan_label_list keguan_label_list ++
      consultList oracle "label_a" label_a_list zhuguan_predict_list keguan_predict_list ++
      consultList oracle "label_b" label_b_list zhuguan_predict_list keguan_predict_list ++
      consultList oracle "label_f" label_f_list zhuguan_predict_list keguan_predict_list
  else []

/-- Stage 2's `llm_results_dict` lookup: the dict comprehension keyed by
`(type, value)` lets a later entry overwrite an earlier one, and
`.get(key, 'error')` defaults to the `'error'` sentinel. -/
def lookupConsult (log : List Consultation) (ty v : String) : String :=
  (log.foldl
    (fun acc c => if c.type == ty && c.value == v then some c.llm_response else acc)
    (none : Option String)).getD "error"

/-- The per-row mutable state of stage 2: the numerator contributions
and the three error-trace lists of the row. -/
@[ext]
structure RowTallies where
  jingque : Nat
  zhaohui : Nat
  fenlei : Nat
  jingqueErr : List String
  zhaohuiErr : List String
  fenleiErr : List String
deriving DecidableEq

/-- All-zero row state. -/
def emptyTallies : RowTallies := ⟨0, 0, 0, [], [], []⟩

/-- Stage 2, precision pass, one predicted A or B item (source lines
491-527; `tag` is `"a"`/`"b"`, `ty` is `"predict_a"`/`"predict_b"`). -/
def precStepAB (tag ty : String) (zl kl : List String) (log : List Consultation)
    (t : RowTallies) (x : String) : RowTallies :=
  if x ∈ zl then
    { t with jingque := t.jingque + 1, fenlei := t.fenlei + 1 }
  else if x ∈ kl then
    { t with jingque := t.jingque + 1, fenleiErr := t.fenleiErr ++ [tag ++ "," ++ x] }
  else
    let res := lookupConsult log ty x
    if res != "error" && pyIn "是" res then
      if pyIn "主观" res then
        { t with jingque := t.jingque + 1, fenlei := t.fenlei + 1 }
      else
        { t with jingque := t.jingque + 1, fenleiErr := t.fenleiErr ++ [tag ++ "," ++ x] }
    else if res == "error" then
      { t with jingqueErr := t.jingqueErr ++ [tag ++ "," ++ x] }
    else t

/-- Stage 2, precision pass, one predicted F item (source lines
529-546): the subjective/objective branches are swapped relative to
A/B, and the oracle path checks the `'客观'` keyword. -/
def precStepF (zl kl : List String) (log : List Consultation)
    (t : RowTallies) (f : String) : RowTallies :=
  if f ∈ zl then
    { t with jingque := t.jingque + 1, fenleiErr := t.fenleiErr ++ ["f," ++ f] }
  else if f ∈ kl then
    { t with jingque := t.jingque + 1, fenlei := t.fenlei + 1 }
  else
    let res := lookupConsult log "predict_f" f
    if res != "error" && pyIn "是" res then
      if pyIn "客观" res then
        { t with jingque := t.jingque + 1, fenlei := t.fenlei + 1 }
      else
        { t with jingque := t.jingque + 1, fenleiErr := t.fenleiErr ++ ["f," ++ f] }
    else if res == "error" then
      { t with jingqueErr := t.jingqueErr ++ ["f," ++ f] }
    else t

/-- Stage 2, recall pass, one labeled item (source lines 555-591;
`tag` is `"a"`/`"b"`/`"f"`, `ty` is `"label_a"`/`"label_b"`/`"label_f"`).
Any miss — oracle `'error'` or a non-affirmative reply — goes to the
recall error trace. -/
def recallStep (tag ty : String) (zp kp : List String) (log : List Consultation)
    (t : RowTallies) (x : String) : RowTallies :=
  if x ∈ zp then
    { t with zhaohui := t.zhaohui + 1 }
  else if x ∈ kp then
    { t with zhaohui := t.zhaohui + 1 }
  else
    let res := lookupConsult log ty x
    if res != "error" && pyIn "是" res then
      { t with zhaohui := t.zhaohui + 1 }
    else
      { t with zhaohuiErr := t.zhaohuiErr ++ [tag ++ "," ++ x] }

/-- The per-row output of stage 2: the row's tallies together with the
denominator contributions `predict_total` (added to both the precision
and the classification denominator) and `label_total` (added to the
recall denominator). -/
structure RowResult where
  tallies : RowTallies
  predTotal : Nat
  labelTotal : Nat
deriving DecidableEq

/-- Stage 2 (`stage_2_calculate_metrics`) restricted to a single row,
reading the cached consultation `log`: `none` when the row is skipped
(untracked segment or all six lists empty), otherwise the row's tallies
and denominator contributions. -/
def stage_2_row (r : Record) (log : List Consultation) : Option RowResult :=
  let industry := pyStrip r.category
  if industry ∈ TARGET_INDUSTRIES then
    let label_f_list := parse_f_attribute_string r.F
    let label_a_list := parse_ab_attribute r.A
    let label_b_list := parse_ab_attribute r.B
    let predict_f_list := parse_pred_f_attribute r.pred_F
    let predict_a_list := parse_ab_attribute r.pred_A
    let predict_b_list := parse_ab_attribute r.pred_B
    if label_f_list = [] ∧ label_a_list = [] ∧ label_b_list = [] ∧
        predict_f_list = [] ∧ predict_a_list = [] ∧ predict_b_list = [] then none
    else
      let zl := label_a_list ++ label_b_list
      let kl := label_f_list
      let zp := predict_a_list ++ predict_b_list
      let kp := predict_f_list
      let t0 := emptyTallies
      let t1 := predict_a_list.foldl (precStepAB "a" "predict_a" zl kl log) t0
      let t2 := predict_b_list.foldl (precStepAB "b" "predict_b" zl kl log) t1
      let t3 := predict_f_list.foldl (precStepF zl kl log) t2
      let t4 := label_a_list.foldl (recallStep "a" "label_a" zp kp log) t3
      let t5 := label_b_list.foldl (recallStep "b" "label_b" zp kp log) t4
      let t6 := label_f_list.foldl (recallStep "f" "label_f" zp kp log) t5
      some ⟨t6,
        predict_a_list.length + predict_b_list.length + predict_f_list.length,
        label_a_list.length + label_b_list.length + label_f_list.length⟩
  else none

/-- The six global counters of stage 2. -/
structure Totals where
  jingque_c : Nat
  jingque_c_all : Nat
  zhaohui_c : Nat
  zhaohui_c_all : Nat
  fenlei_c : Nat
  fenlei_c_all : Nat
deriving DecidableEq

/-- Stage 2, one row's effect on the global counters (a skipped row
contributes nothing). -/
def stage_2_step (acc : Totals) (p : Record × List Consultation) : Totals :=
  match stage_2_row p.1 p.2 with
  | none => acc
  | some rr =>
    { jingque_c := acc.jingque_c + rr.tallies.jingque
      jingque_c_all := acc.jingque_c_all + rr.predTotal
      zhaohui_c := acc.zhaohui_c + rr.tallies.zhaohui
      zhaohui_c_all := acc.zhaohui_c_all + rr.labelTotal
      fenlei_c := acc.fenlei_c + rr.tallies.fenlei
      fenlei_c_all := acc.fenlei_c_all + rr.predTotal }

/-- Stage 2 over a whole run: rows paired with their cached consultation
logs, processed in table order from all-zero counters. -/
def stage_2_run (rows : List (Record × List Consultation)) : Totals :=
  rows.foldl stage_2_step ⟨0, 0, 0, 0, 0, 0⟩

/-- Contribution of one row to the precision/classification denominator
(`0` for a skipped row). -/
def rowPredItems (p : Record × List Consultation) : Nat :=
  match stage_2_row p.1 p.2 with
  | none => 0
  | some rr => rr.predTotal

/-- Contribution of one row to the recall denominator (`0` for a
skipped row). -/
def rowLabelItems (p : Record × List Consultation) : Nat :=
  match stage_2_row p.1 p.2 with
  | none => 0
  | some rr => rr.labelTotal

/-- Number of log entries carrying the `(type, value)` key `(ty, v)`. -/
def keyCount (log : List Consultation) (ty v : String) : Nat :=
  (log.filter (fun c => c.type == ty && c.value == v)).length

/-- Number of occurrences of `v` in a list of strings. -/
def occCount (v : String) (l : List String) : Nat :=
  (l.filter (fun x => x == v)).length

/-- The segment of `l` strictly between the first and the second
occurrence of `sep` (everything after the first occurrence when there
is no second one): an independent characterization, by `dropWhile` and
`takeWhile`, of the second field of Python's `split`. -/
def secondField (sep : Char) (l : List Char) : List Char :=
  ((l.dropWhile (fun c => c != sep)).drop 1).takeWhile (fun c => c != sep)

/-- A record whose label and prediction cells agree in every category
while the string `"x"` occurs in both the F and the A category. -/
def recOverlap : Record :=
  ⟨"台球", some "x", some "x", none, some "x", some "x", none⟩

/-- A record whose predicted-A cell holds the same string twice and
whose other attribute cells are missing. -/
def recDupA : Record :=
  ⟨"台球", none, none, none, none, some "x,x", none⟩

/-- A record whose label and prediction cells agree in every category,
with the F value disjoint from the A/B values. -/
def recIdent : Record :=
  ⟨"台球", some "材质:棉", some "轻便", none, some "材质:棉", some "轻便", none⟩

/-- A well-formed structured oracle reply whose equivalence field
`judge_1` is negative, followed by explanatory text that contains the
`'是'` character (inside `不是`). -/
def negJudgeReply : String :=
  "\x7b\"judge_1\": \"否\", \"judge_2\": \"主观\"\x7d 不是相同含义"

lemma foldl_lookup_no_match (ty v : String) (log : List Consultation)
    (acc : Option String)
    (h : ∀ c ∈ log, ¬(c.type = ty ∧ c.value = v)) :
    log.foldl
      (fun a c => if c.type == ty && c.value == v then some c.llm_response else a)
      acc = acc := by
  induction log generalizing acc with
  | nil => rfl
  | cons c cs ih =>
    have hc := h c (List.mem_cons_self c cs)
    have hb : (c.type == ty && c.value == v) = false := by
      by_cases h1 : c.type = ty
      · by_cases h2 : c.value = v
        · exact absurd ⟨h1, h2⟩ hc
        · simp [h2]
      · simp [h1]
    simp only [List.foldl_cons, hb, Bool.false_eq_true, if_false]
    exact ih acc (fun d hd => h d (List.mem_cons_of_mem c hd))

lemma lookupConsult_no_match (log : List Consultation) (ty v : String)
    (h : ∀ c ∈ log, ¬(c.type = ty ∧ c.value = v)) :
    lookupConsult log ty v = "error" := by
  unfold lookupConsult
  rw [foldl_lookup_no_match ty v log none h]
  rfl

lemma lookupConsult_last (l1 l2 : List Consultation) (ty v resp : String)
    (h : ∀ c ∈ l2, ¬(c.type = ty ∧ c.value = v)) :
    lookupConsult (l1 ++ ⟨ty, v, resp⟩ :: l2) ty v = resp := by
  unfold lookupConsult
  rw [List.foldl_append, List.foldl_cons]
  have hb : ((⟨ty, v, resp⟩ : Consultation).type == ty &&
      (⟨ty, v, resp⟩ : Consultation).value == v) = true := by simp
  rw [hb]
  simp only [if_true]
  rw [foldl_lookup_no_match ty v l2 (some resp) h]
  rfl

lemma lookupConsult_singleton (ty v resp : String) :
    lookupConsult [⟨ty, v, resp⟩] ty v = resp :=
  lookupConsult_last [] [] ty v resp (by simp)

lemma consultList_eq_nil (oracle : String → List String → String) (ty : String)
    (items zhuguan keguan : List String)
    (h : ∀ x ∈ items, x ∈ zhuguan ∨ x ∈ keguan) :
    consultList oracle ty items zhuguan keguan = [] := by
  induction items with
  | nil => rfl
  | cons x xs ih =>
    have hx := h x (List.mem_cons_self x xs)
    simp only [consultList, List.filterMap_cons, if_pos hx]
    exact ih (fun y hy => h y (List.mem_cons_of_mem x hy))

lemma parse_ab_attribute_mem (cell : Option String) (x : String)
    (hx : x ∈ parse_ab_attribute cell) : x ≠ "" ∧ x ≠ "nan" := by
  cases cell with
  | none => simp [parse_ab_attribute] at hx
  | some s0 =>
    simp only [parse_ab_attribute] at hx
    split at hx
    · simp at hx
    · rw [List.mem_filterMap] at hx
      obtain ⟨item, _, hit⟩ := hx
      split at hit
      · rename_i hcond
        rw [Option.some.injEq] at hit
        subst hit
        simpa using hcond
      · exact absurd hit (by simp)

lemma backoffWait_eq_two (m : String) : backoffWait m = 2 := by
  unfold backoffWait
  split <;> rfl

lemma llm_check_go_wait_two (l : List (Except String String)) :
    ∀ w ∈ (llm_check_go l).2, w = 2 := by
  induction l with
  | nil => simp [llm_check_go]
  | cons o rest ih =>
    cases o with
    | ok reply => simp [llm_check_go]
    | error msg =>
      cases rest with
      | nil => simp [llm_check_go]
      | cons o2 r2 =>
        intro w hw
        simp only [llm_check_go] at hw
        rcases List.mem_cons.mp hw with h | h
        · exact h ▸ backoffWait_eq_two msg
        · exact ih w h

lemma llm_check_go_len (l : List (Except String String)) (h : l ≠ []) :
    (llm_check_go l).2.length + 1 ≤ l.length := by
  induction l with
  | nil => exact absurd rfl h
  | cons o rest ih =>
    cases o with
    | ok reply => simp [llm_check_go]
    | error msg =>
      cases rest with
      | nil => simp [llm_check_go]
      | cons o2 r2 =>
        have hrec := ih (by simp)
        simp only [llm_check_go, List.length_cons] at hrec ⊢
        omega

lemma llm_check_go_all_fail (l : List (Except String String))
    (h : ∀ o ∈ l, ∀ r, o ≠ Except.ok r) : (llm_check_go l).1 = "error" := by
  induction l with
  | nil => rfl
  | cons o rest ih =>
    cases o with
    | ok reply => exact absurd rfl (h _ (List.mem_cons_self _ _) reply)
    | error msg =>
      cases rest with
      | nil => rfl
      | cons o2 r2 =>
        simp only [llm_check_go]
        exact ih (fun x hx => h x (List.mem_cons_of_mem _ hx))

lemma stage_2_row_totals (r : Record) (log : List Consultation) (rr : RowResult)
    (h : stage_2_row r log = some rr) :
    rr.predTotal = (parse_ab_attribute r.pred_A).length +
        (parse_ab_attribute r.pred_B).length + (parse_pred_f_attribute r.pred_F).length ∧
    rr.labelTotal = (parse_ab_attribute r.A).length +
        (parse_ab_attribute r.B).length + (parse_f_attribute_string r.F).length := by
  simp only [stage_2_row] at h
  split at h
  · split at h
    · exact absurd h (by simp)
    · rw [Option.some.injEq] at h
      subst h
      exact ⟨rfl, rfl⟩
  · exact absurd h (by simp)

lemma foldl_precStepAB_subj (tag ty : String) (zl kl : List String)
    (log : List Consultation) (xs : List String) (t : RowTallies)
    (h : ∀ x ∈ xs, x ∈ zl) :
    xs.foldl (precStepAB tag ty zl kl log) t =
      { t with jingque := t.jingque + xs.length, fenlei := t.fenlei + xs.length } := by
  induction xs generalizing t with
  | nil => simp
  | cons x xs ih =>
    have hx : x ∈ zl := h x (List.mem_cons_self x xs)
    have hstep : precStepAB tag ty zl kl log t x =
        { t with jingque := t.jingque + 1, fenlei := t.fenlei + 1 } := by
      simp [precStepAB, hx]
    rw [List.foldl_cons, hstep, ih _ (fun y hy => h y (List.mem_cons_of_mem x hy))]
    cases t
    simp
    omega

lemma foldl_precStepF_obj (zl kl : List String)
    (log : List Consultation) (xs : List String) (t : RowTallies)
    (h : ∀ x ∈ xs, x ∉ zl ∧ x ∈ kl) :
    xs.foldl (precStepF zl kl log) t =
      { t with jingque := t.jingque + xs.length, fenlei := t.fenlei + xs.length } := by
  induction xs generalizing t with
  | nil => simp
  | cons x xs ih =>
    obtain ⟨hx1, hx2⟩ := h x (List.mem_cons_self x xs)
    have hstep : precStepF zl kl log t x =
        { t with jingque := t.jingque + 1, fenlei := t.fenlei + 1 } := by
      simp [precStepF, hx1, hx2]
    rw [List.foldl_cons, hstep, ih _ (fun y hy => h y (List.mem_cons_of_mem x hy))]
    cases t
    simp
    omega

lemma foldl_recallStep_hit (tag ty : String) (zp kp : List String)
    (log : List Consultation) (xs : List String) (t : RowTallies)
    (h : ∀ x ∈ xs, x ∈ zp ∨ x ∈ kp) :
    xs.foldl (recallStep tag ty zp kp log) t =
      { t with zhaohui := t.zhaohui + xs.length } := by
  induction xs generalizing t with
  | nil => simp
  | cons x xs ih =>
    have hstep : recallStep tag ty zp kp log t x =
        { t with zhaohui := t.zhaohui + 1 } := by
      rcases h x (List.mem_cons_self x xs) with hx | hx
      · simp [recallStep, hx]
      · by_cases hz : x ∈ zp
        · simp [recallStep, hz]
        · simp [recallStep, hz, hx]
    rw [List.foldl_cons, hstep, ih _ (fun y hy => h y (List.mem_cons_of_mem x hy))]
    cases t
    simp
    omega

lemma keyCount_append (l1 l2 : List Consultation) (ty v : String) :
    keyCount (l1 ++ l2) ty v = keyCount l1 ty v + keyCount l2 ty v := by
  simp [keyCount, List.filter_append]

lemma keyCount_cons_match (c : Consultation) (l : List Consultation) (ty v : String)
    (h : c.type = ty ∧ c.value = v) :
    keyCount (c :: l) ty v = keyCount l ty v + 1 := by
  simp [keyCount, List.filter_cons, h.1, h.2]

lemma keyCount_cons_ne (c : Consultation) (l : List Consultation) (ty v : String)
    (h : ¬(c.type = ty ∧ c.value = v)) :
    keyCount (c :: l) ty v = keyCount l ty v := by
  have hb : (c.type == ty && c.value == v) = false := by
    by_cases h1 : c.type = ty
    · by_cases h2 : c.value = v
      · exact absurd ⟨h1, h2⟩ h
      · simp [h2]
    · simp [h1]
  simp [keyCount, List.filter_cons, hb]

lemma keyCount_consultList (oracle : String → List String → String) (ty : String)
    (items zhuguan keguan : List String) (v : String) :
    keyCount (consultList oracle ty items zhuguan keguan) ty v =
      if v ∈ zhuguan ∨ v ∈ keguan then 0 else occCount v items := by
  induction items with
  | nil =>
    simp only [consultList, List.filterMap_nil, keyCount, List.filter_nil,
      List.length_nil, occCount]
    split <;> rfl
  | cons x xs ih =>
    by_cases hx : x ∈ zhuguan ∨ x ∈ keguan
    · have hcl : consultList oracle ty (x :: xs) zhuguan keguan =
          consultList oracle ty xs zhuguan keguan := by
        simp only [consultList, List.filterMap_cons, if_pos hx]
      rw [hcl, ih]
      split
      · rfl
      · rename_i hv
        have hxv : (x == v) = false := by
          by_cases hxe : x = v
          · exact absurd (hxe ▸ hx) hv
          · simp [hxe]
        simp [occCount, List.filter_cons, hxv]
    · have hcl : consultList oracle ty (x :: xs) zhuguan keguan =
          ⟨ty, x, oracle x (zhuguan ++ keguan)⟩ :: consultList oracle ty xs zhuguan keguan := by
        simp only [consultList, List.filterMap_cons, if_neg hx]
      rw [hcl]
      by_cases hxe : x = v
      · subst hxe
        rw [keyCount_cons_match _ _ _ _ ⟨rfl, rfl⟩, ih, if_neg hx, if_neg hx]
        simp [occCount, List.filter_cons]
      · rw [keyCount_cons_ne _ _ _ _ (by simp [hxe]), ih]
        split
        · rfl
        · have hxv : (x == v) = false := by simp [hxe]
          simp [occCount, List.filter_cons, hxv]

lemma keyCount_consultList_ne (oracle : String → List String → String)
    (ty ty' : String) (items zhuguan keguan : List String) (v : String)
    (h : ty ≠ ty') :
    keyCount (consultList oracle ty' items zhuguan keguan) ty v = 0 := by
  induction items with
  | nil => rfl
  | cons x xs ih =>
    by_cases hx : x ∈ zhuguan ∨ x ∈ keguan
    · simpa only [consultList, List.filterMap_cons, if_pos hx] using ih
    · have hcl : consultList oracle ty' (x :: xs) zhuguan keguan =
          ⟨ty', x, oracle x (zhuguan ++ keguan)⟩ :: consultList oracle ty' xs zhuguan keguan := by
        simp only [consultList, List.filterMap_cons, if_neg hx]
      rw [hcl, keyCount_cons_ne _ _ _ _ (by simp [Ne.symm h])]
      exact ih

lemma stage_2_step_all (acc : Totals) (p : Record × List Consultation) :
    (stage_2_step acc p).jingque_c_all = acc.jingque_c_all + rowPredItems p ∧
    (stage_2_step acc p).fenlei_c_all = acc.fenlei_c_all + rowPredItems p ∧
    (stage_2_step acc p).zhaohui_c_all = acc.zhaohui_c_all + rowLabelItems p := by
  unfold stage_2_step rowPredItems rowLabelItems
  cases stage_2_row p.1 p.2 <;> simp

lemma stage_2_foldl_all (rows : List (Record × List Consultation)) (acc : Totals) :
    (rows.foldl stage_2_step acc).jingque_c_all =
      acc.jingque_c_all + (rows.map rowPredItems).sum ∧
    (rows.foldl stage_2_step acc).fenlei_c_all =
      acc.fenlei_c_all + (rows.map rowPredItems).sum ∧
    (rows.foldl stage_2_step acc).zhaohui_c_all =
      acc.zhaohui_c_all + (rows.map rowLabelItems).sum := by
  induction rows generalizing acc with
  | nil => simp
  | cons p ps ih =>
    obtain ⟨s1, s2, s3⟩ := stage_2_step_all acc p
    obtain ⟨h1, h2, h3⟩ := ih (stage_2_step acc p)
    simp only [List.foldl_cons, List.map_cons, List.sum_cons]
    rw [h1, h2, h3, s1, s2, s3]
    omega

/-- C3: a predicted A-item with no exact match in either label-side
list whose cached oracle response is the sentinel `'error'` does not
increment the precision numerator, appends `"a,<value>"` to the row's
precision-error trace, and is still counted once in the per-record
precision denominator (which is the plain item count of the three
predicted lists). -/
theorem C3_unmatched_error_item (zl kl : List String) (log : List Consultation)
    (t : RowTallies) (a : String)
    (h1 : a ∉ zl) (h2 : a ∉ kl)
    (h3 : lookupConsult log "predict_a" a = "error") :
    (precStepAB "a" "predict_a" zl kl log t a).jingque = t.jingque ∧
    (precStepAB "a" "predict_a" zl kl log t a).jingqueErr = t.jingqueErr ++ ["a," ++ a] ∧
    ∀ (r : Record) (log2 : List Consultation) (rr : RowResult),
      stage_2_row r log2 = some rr →
      rr.predTotal = (parse_ab_attribute r.pred_A).length +
        (parse_ab_attribute r.pred_B).length + (parse_pred_f_attribute r.pred_F).length := by
  refine ⟨?_, ?_, fun r log2 rr h => (stage_2_row_totals r log2 rr h).1⟩
  · simp [precStepAB, h1, h2, h3]
  · simp [precStepAB, h1, h2, h3]

/-- Witness for C3 at a concrete unmatched item with an empty cache. -/
theorem C3_unmatched_error_item_witness :
    ("x" ∉ ([] : List String)) ∧
    lookupConsult [] "predict_a" "x" = "error" ∧
    (precStepAB "a" "predict_a" [] [] [] emptyTallies "x").jingqueErr =
      emptyTallies.jingqueErr ++ ["a," ++ "x"] :=
  ⟨by decide, by decide,
   (C3_unmatched_error_item [] [] [] emptyTallies "x"
     (by decide) (by decide) (by decide)).2.1⟩

/-- C4: a predicted F-item that exact-matches a member of the label's
subjective (A+B) list counts as a precision hit, is not counted as a
classification hit, and appends `"f,<value>"` to the row's
classification-error trace. -/
theorem C4_predF_subjective_match (zl kl : List String) (log : List Consultation)
    (t : RowTallies) (f : String) (h : f ∈ zl) :
    (precStepF zl kl log t f).jingque = t.jingque + 1 ∧
    (precStepF zl kl log t f).fenlei = t.fenlei ∧
    (precStepF zl kl log t f).fenleiErr = t.fenleiErr ++ ["f," ++ f] := by
  refine ⟨?_, ?_, ?_⟩ <;> simp [precStepF, h]

/-- Witness for C4 at a concrete predicted F-item matching the
subjective label list. -/
theorem C4_predF_subjective_match_witness :
    ("x" ∈ ["x"]) ∧
    (precStepF ["x"] [] [] emptyTallies "x").fenleiErr =
      emptyTallies.fenleiErr ++ ["f," ++ "x"] :=
  ⟨by decide, (C4_predF_subjective_match ["x"] [] [] emptyTallies "x" (by decide)).2.2⟩

lemma containsB_singleton_iff (c : Char) (l : List Char) :
    containsB [c] l = true ↔ c ∈ l := by
  induction l with
  | nil => simp [containsB, startsWithB]
  | cons x xs ih => simp [containsB, startsWithB, ih, List.mem_cons]

lemma splitOnChar_ne_nil (sep : Char) (l : List Char) : splitOnChar sep l ≠ [] := by
  cases l with
  | nil => simp [splitOnChar]
  | cons c cs =>
    simp only [splitOnChar]
    split
    · simp
    · split <;> simp

lemma takeWhile_ne_of_not_mem (sep : Char) (l : List Char) (h : sep ∉ l) :
    l.takeWhile (fun c => c != sep) = l := by
  induction l with
  | nil => rfl
  | cons c cs ih =>
    have hc : (c != sep) = true := by
      simp only [bne_iff_ne, ne_eq]
      exact fun he => h (he ▸ List.mem_cons_self c cs)
    simp [List.takeWhile_cons, hc, ih (fun hm => h (List.mem_cons_of_mem c hm))]

lemma splitOnChar_of_not_mem (sep : Char) (l : List Char) (h : sep ∉ l) :
    splitOnChar sep l = [l] := by
  induction l with
  | nil => rfl
  | cons c cs ih =>
    have hb : (c == sep) = false := by
      simp only [beq_eq_false_iff_ne, ne_eq]
      exact fun he => h (he ▸ List.mem_cons_self c cs)
    have hrest : sep ∉ cs := fun hm => h (List.mem_cons_of_mem c hm)
    simp [splitOnChar, hb, ih hrest]

lemma splitOnChar_of_mem (sep : Char) (l : List Char) (h : sep ∈ l) :
    splitOnChar sep l =
      l.takeWhile (fun c => c != sep) ::
        splitOnChar sep ((l.dropWhile (fun c => c != sep)).drop 1) := by
  induction l with
  | nil => exact absurd h (List.not_mem_nil sep)
  | cons c cs ih =>
    by_cases hc : c = sep
    · subst hc
      simp [splitOnChar, List.takeWhile_cons, List.dropWhile_cons]
    · have hb : (c == sep) = false := by simp [hc]
      have hbne : (c != sep) = true := by simp [hc]
      have hmem : sep ∈ cs := by
        rcases List.mem_cons.mp h with h1 | h1
        · exact absurd h1.symm hc
        · exact h1
      simp only [splitOnChar, hb, Bool.false_eq_true, if_false, ih hmem,
        List.takeWhile_cons, hbne, if_true, List.dropWhile_cons]

lemma splitOnChar_headD (sep : Char) (l : List Char) :
    (splitOnChar sep l).headD [] = l.takeWhile (fun c => c != sep) := by
  by_cases h : sep ∈ l
  · rw [splitOnChar_of_mem sep l h]
    rfl
  · rw [splitOnChar_of_not_mem sep l h, takeWhile_ne_of_not_mem sep l h]
    rfl

lemma pySplit_getD_one (sep : Char) (s : String) (h : sep ∈ s.data) :
    List.getD (pySplit sep s) 1 "" = ⟨secondField sep s.data⟩ := by
  unfold pySplit secondField
  rw [splitOnChar_of_mem sep s.data h]
  obtain ⟨hd, tl, heq⟩ := List.exists_cons_of_ne_nil
    (splitOnChar_ne_nil sep ((s.data.dropWhile (fun c => c != sep)).drop 1))
  have hhd : hd =
      ((s.data.dropWhile (fun c => c != sep)).drop 1).takeWhile (fun c => c != sep) := by
    have h2 := splitOnChar_headD sep ((s.data.dropWhile (fun c => c != sep)).drop 1)
    rw [heq] at h2
    simpa using h2
  rw [heq, hhd]
  rfl

lemma parse_f_item_value (item : String) :
    (if pyIn "：" item then pyStrip (List.getD (pySplit '：' item) 1 "")
     else if pyIn ":" item then pyStrip (List.getD (pySplit ':' item) 1 "")
     else item) =
    (if '：' ∈ item.data then pyStrip ⟨secondField '：' item.data⟩
     else if ':' ∈ item.data then pyStrip ⟨secondField ':' item.data⟩
     else item) := by
  by_cases h1 : '：' ∈ item.data
  · have hb : pyIn "：" item = true := (containsB_singleton_iff '：' item.data).mpr h1
    rw [if_pos hb, if_pos h1, pySplit_getD_one '：' item h1]
  · have hb : ¬ pyIn "：" item = true :=
      fun hc => h1 ((containsB_singleton_iff '：' item.data).mp hc)
    rw [if_neg hb, if_neg h1]
    by_cases h2 : ':' ∈ item.data
    · have hb2 : pyIn ":" item = true := (containsB_singleton_iff ':' item.data).mpr h2
      rw [if_pos hb2, if_pos h2, pySplit_getD_one ':' item h2]
    · have hb2 : ¬ pyIn ":" item = true :=
        fun hc => h2 ((containsB_singleton_iff ':' item.data).mp hc)
      rw [if_neg hb2, if_neg h2]

lemma parse_pred_f_item_value (item : String) :
    (if pyIn ":" item then pyStrip (List.getD (pySplit ':' item) 1 "") else item) =
    (if ':' ∈ item.data then pyStrip ⟨secondField ':' item.data⟩ else item) := by
  by_cases h : ':' ∈ item.data
  · have hb : pyIn ":" item = true := (containsB_singleton_iff ':' item.data).mpr h
    rw [if_pos hb, if_pos h, pySplit_getD_one ':' item h]
  · have hb : ¬ pyIn ":" item = true :=
      fun hc => h ((containsB_singleton_iff ':' item.data).mp hc)
    rw [if_neg hb, if_neg h]

lemma filterMap_ext_fun {α β : Type} (F G : α → Option β) (l : List α)
    (h : ∀ x, F x = G x) : l.filterMap F = l.filterMap G := by
  rw [funext h]

lemma filterMap_guard_map {α β : Type} (p : α → Bool) (g : α → β) (l : List α) :
    l.filterMap (fun x => if p x then some (g x) else none) = (l.filter p).map g := by
  induction l with
  | nil => rfl
  | cons x xs ih =>
    by_cases hx : p x = true <;> simp [List.filterMap_cons, List.filter_cons, hx, ih]

/-- C6 counterexample: for an item with two ASCII colons the label-side
F parser keeps only the text between the first and the second colon
(Python `split(':')[1]`), not everything after the first separator: on
the cell `"尺寸:10:20"` it yields `["10"]`, while the claim demands
`["10:20"]`. -/
theorem C6_colon_counterexample :
    parse_f_attribute_string (some "尺寸:10:20") = ["10"] ∧
    parse_pred_f_attribute (some "尺寸:10:20") = ["10"] ∧
    ("10" : String) ≠ "10:20" := by
  refine ⟨by decide, by decide, by decide⟩

/-- C6 amended: for every F cell past the whole-cell guard, each
comma-separated item (ASCII or full-width comma, trimmed) that survives
the item filter and contains a colon yields the trimmed text strictly
between the first and the second occurrence of the chosen separator
(everything after the first occurrence when there is no second one),
the label parser choosing the full-width colon over the ASCII one
regardless of position; items without a separator are kept verbatim.
The claim's round-trip examples also hold. -/
theorem C6_value_extraction :
    (∀ cell : String, cell ≠ "" → cell ≠ "无" → cell ≠ "nan" →
      parse_f_attribute_string (some cell) =
        (((pySplit ',' (pyReplace (pyStrip cell) '，' ',')).map pyStrip).filter
            (fun item => item != "" && item != "无" && item != "nan")).map
          (fun item =>
            if '：' ∈ item.data then pyStrip ⟨secondField '：' item.data⟩
            else if ':' ∈ item.data then pyStrip ⟨secondField ':' item.data⟩
            else item)) ∧
    (∀ cell : String, cell ≠ "" → cell ≠ "无" → cell ≠ "nan" →
      parse_pred_f_attribute (some cell) =
        (((pySplit ',' (pyReplace (pyStrip cell) '，' ',')).map pyStrip).filter
            (fun item => item != "" && item != "无" && item != "nan")).map
          (fun item =>
            if ':' ∈ item.data then pyStrip ⟨secondField ':' item.data⟩
            else item)) ∧
    parse_pred_f_attribute (some "材质:棉,颜色:红") = ["棉", "红"] ∧
    parse_f_attribute_string (some "材质：棉, 颜色：红") = ["棉", "红"] ∧
    parse_f_attribute_string (some "尺寸:10:20") = ["10"] ∧
    parse_pred_f_attribute (some "尺寸:10:20") = ["10"] ∧
    parse_f_attribute_string (some "a:b：c") = ["c"] ∧
    parse_f_attribute_string (some "材质:棉") = ["棉"] ∧
    parse_f_attribute_string (some "轻便") = ["轻便"] ∧
    parse_pred_f_attribute (some "轻便") = ["轻便"] := by
  refine ⟨?_, ?_, by decide, by decide, by decide, by decide, by decide, by decide,
    by decide, by decide⟩
  · intro cell h1 h2 h3
    have hg : (cell == "" || cell == "无" || cell == "nan") = false := by
      simp [h1, h2, h3]
    simp only [parse_f_attribute_string, hg, Bool.false_eq_true, if_false]
    have hitem : ∀ item : String,
        (if item != "" && item != "无" && item != "nan" then
          if pyIn "：" item then some (pyStrip (List.getD (pySplit '：' item) 1 ""))
          else if pyIn ":" item then some (pyStrip (List.getD (pySplit ':' item) 1 ""))
          else some item
        else none) =
        (if item != "" && item != "无" && item != "nan" then
          some (if '：' ∈ item.data then pyStrip ⟨secondField '：' item.data⟩
            else if ':' ∈ item.data then pyStrip ⟨secondField ':' item.data⟩
            else item)
        else none) := by
      intro item
      by_cases hk : (item != "" && item != "无" && item != "nan") = true
      · rw [if_pos hk, if_pos hk]
        have hpush :
            (if pyIn "：" item then some (pyStrip (List.getD (pySplit '：' item) 1 ""))
             else if pyIn ":" item then some (pyStrip (List.getD (pySplit ':' item) 1 ""))
             else some item) =
            some (if pyIn "：" item then pyStrip (List.getD (pySplit '：' item) 1 "")
              else if pyIn ":" item then pyStrip (List.getD (pySplit ':' item) 1 "")
              else item) := by
          by_cases c1 : pyIn "：" item = true <;> by_cases c2 : pyIn ":" item = true <;>
            simp [c1, c2]
        rw [hpush, parse_f_item_value item]
      · rw [if_neg hk, if_neg hk]
    rw [filterMap_ext_fun _ _ _ hitem, filterMap_guard_map]
  · intro cell h1 h2 h3
    have hg : (cell == "" || cell == "无" || cell == "nan") = false := by
      simp [h1, h2, h3]
    simp only [parse_pred_f_attribute, hg, Bool.false_eq_true, if_false]
    have hitem : ∀ item : String,
        (if item != "" && item != "无" && item != "nan" then
          if pyIn ":" item then some (pyStrip (List.getD (pySplit ':' item) 1 ""))
          else some item
        else none) =
        (if item != "" && item != "无" && item != "nan" then
          some (if ':' ∈ item.data then pyStrip ⟨secondField ':' item.data⟩ else item)
        else none) := by
      intro item
      by_cases hk : (item != "" && item != "无" && item != "nan") = true
      · rw [if_pos hk, if_pos hk]
        have hpush :
            (if pyIn ":" item then some (pyStrip (List.getD (pySplit ':' item) 1 ""))
             else some item) =
            some (if pyIn ":" item then pyStrip (List.getD (pySplit ':' item) 1 "")
              else item) := by
          by_cases c2 : pyIn ":" item = true <;> simp [c2]
        rw [hpush, parse_pred_f_item_value item]
      · rw [if_neg hk, if_neg hk]
    rw [filterMap_ext_fun _ _ _ hitem, filterMap_guard_map]

/-- Witness for C6 on the claim's own round-trip cell. -/
theorem C6_value_extraction_witness :
    ("材质：棉, 颜色：红" : String) ≠ "" ∧
    parse_f_attribute_string (some "材质：棉, 颜色：红") =
      (((pySplit ',' (pyReplace (pyStrip "材质：棉, 颜色：红") '，' ',')).map pyStrip).filter
          (fun item => item != "" && item != "无" && item != "nan")).map
        (fun item =>
          if '：' ∈ item.data then pyStrip ⟨secondField '：' item.data⟩
          else if ':' ∈ item.data then pyStrip ⟨secondField ':' item.data⟩
          else item) :=
  ⟨by decide,
   C6_value_extraction.1 "材质：棉, 颜色：红" (by decide) (by decide) (by decide)⟩

/-- C9: stage 2's cached-consultation lookup returns the `'error'`
sentinel when no log entry carries the `(origin, value)` key; when
several entries share the key, the response of the last one in the log
is used; and an unmatched item whose key is absent contributes nothing
to the precision numerator while being logged as unresolved. -/
theorem C9_lookup_default_last (ty v : String) :
    (∀ log : List Consultation,
      (∀ c ∈ log, ¬(c.type = ty ∧ c.value = v)) →
      lookupConsult log ty v = "error") ∧
    (∀ (l1 l2 : List Consultation) (resp : String),
      (∀ c ∈ l2, ¬(c.type = ty ∧ c.value = v)) →
      lookupConsult (l1 ++ ⟨ty, v, resp⟩ :: l2) ty v = resp) ∧
    (∀ (zl kl : List String) (log : List Consultation) (t : RowTallies) (a : String),
      a ∉ zl → a ∉ kl →
      (∀ c ∈ log, ¬(c.type = "predict_a" ∧ c.value = a)) →
      (precStepAB "a" "predict_a" zl kl log t a).jingque = t.jingque ∧
      (precStepAB "a" "predict_a" zl kl log t a).jingqueErr =
        t.jingqueErr ++ ["a," ++ a]) := by
  refine ⟨fun log h => lookupConsult_no_match log ty v h,
    fun l1 l2 resp h => lookupConsult_last l1 l2 ty v resp h,
    fun zl kl log t a h1 h2 h3 => ?_⟩
  have hl := lookupConsult_no_match log "predict_a" a h3
  exact ⟨by simp [precStepAB, h1, h2, hl], by simp [precStepAB, h1, h2, hl]⟩

/-- Witness for C9: a concrete log with two entries sharing the key,
the later one winning. -/
theorem C9_lookup_default_last_witness :
    lookupConsult [⟨"predict_a", "x", "r1"⟩, ⟨"predict_a", "x", "r2"⟩]
      "predict_a" "x" = "r2" ∧
    (∀ c ∈ ([] : List Consultation), ¬(c.type = "predict_a" ∧ c.value = "x")) :=
  ⟨(C9_lookup_default_last "predict_a" "x").2.1
      [⟨"predict_a", "x", "r1"⟩] [] "r2" (by simp),
   by simp⟩

/-- C10 counterexample: the F parsers can emit `'无'` when it is the
value portion of a `key:value` item, so "the F parsers never emit
`'无'`" fails. -/
theorem C10_wu_emitted_counterexample :
    parse_pred_f_attribute (some "材质:无") = ["无"] ∧
    parse_f_attribute_string (some "材质：无") = ["无"] := by
  refine ⟨by decide, by decide⟩

/-- C10 amended: within a comma-separated cell the F parsers drop whole
items equal to `'无'` or `'nan'` after trimming (on `"轻便,无"` they
yield `["轻便"]`), though `'无'` can still appear as the value portion
after a colon; the A/B parser drops only `'nan'` items and keeps `'无'`
verbatim, so on `"轻便,无"` it returns a list containing `'无'`. -/
theorem C10_wu_handling :
    parse_ab_attribute (some "轻便,无") = ["轻便", "无"] ∧
    parse_f_attribute_string (some "轻便,无") = ["轻便"] ∧
    parse_pred_f_attribute (some "轻便,无") = ["轻便"] ∧
    (∀ (cell : Option String) (x : String),
      x ∈ parse_ab_attribute cell → x ≠ "nan") := by
  refine ⟨by decide, by decide, by decide,
    fun cell x hx => (parse_ab_attribute_mem cell x hx).2⟩

/-- Witness for C10: `'无'` really is a member of the A/B parse of
`"轻便,无"` and differs from `'nan'`. -/
theorem C10_wu_handling_witness :
    "无" ∈ parse_ab_attribute (some "轻便,无") ∧ ("无" : String) ≠ "nan" :=
  ⟨by decide, C10_wu_handling.2.2.2 (some "轻便,无") "无" (by decide)⟩

/-- C5 counterexample: the backoff for a rate-limit-looking error
(message containing `'429'`) equals the backoff for any other error —
both are the flat 2-second wait — so it is not strictly shorter.  Shown
on two all-failing runs of the retry loop. -/
theorem C5_flat_backoff_counterexample :
    (llm_check (fun _ => Except.error "429 too many")).2 = List.replicate 9 2 ∧
    (llm_check (fun _ => Except.error "connection reset")).2 = List.replicate 9 2 ∧
    ¬((llm_check (fun _ => Except.error "429 too many")).2.headD 0 <
        (llm_check (fun _ => Except.error "connection reset")).2.headD 0) ∧
    (llm_check (fun _ => Except.error "429 too many")).1 = "error" := by
  refine ⟨by decide, by decide, by decide, by decide⟩

/-- C5 amended: on every failed attempt before the last the client
waits the same flat 2-second backoff whether or not the error looks
like a rate limit, then retries, up to `max_retries = 10` attempts (so
at most 9 waits); after the final attempt fails it returns the sentinel
`'error'` instead of raising. -/
theorem C5_retry_policy (outcome : Nat → Except String String)
    (hfail : ∀ i, i < MAX_RETRIES → ∀ r, outcome i ≠ Except.ok r) :
    (∀ g : Nat → Except String String, ∀ w ∈ (llm_check g).2, w = 2) ∧
    (∀ m : String, backoffWait m = 2) ∧
    (∀ g : Nat → Except String String, (llm_check g).2.length + 1 ≤ MAX_RETRIES) ∧
    (llm_check outcome).1 = "error" := by
  refine ⟨fun _ => llm_check_go_wait_two _, backoffWait_eq_two, fun g => ?_, ?_⟩
  · have hlen := llm_check_go_len ((List.range MAX_RETRIES).map g)
      (by simp [MAX_RETRIES])
    simpa [llm_check, MAX_RETRIES] using hlen
  · apply llm_check_go_all_fail
    intro o ho r
    rw [List.mem_map] at ho
    obtain ⟨i, hi, rfl⟩ := ho
    exact hfail i (by simpa using hi) r

/-- Witness for C5 on a run whose every attempt raises. -/
theorem C5_retry_policy_witness :
    (∀ i, i < MAX_RETRIES → ∀ r,
      (fun _ => Except.error "connection reset" : Nat → Except String String) i ≠
        Except.ok r) ∧
    (llm_check (fun _ => Except.error "connection reset")).1 = "error" :=
  ⟨fun _ _ _ h => Except.noConfusion h,
   (C5_retry_policy (fun _ => Except.error "connection reset")
     (fun _ _ _ h => Except.noConfusion h)).2.2.2⟩

/-- C8 counterexample: `negJudgeReply` is a well-formed structured
reply whose equivalence field is negative (`judge_1 = "否"`), yet
stage 2 counts the item as a precision hit (and a classification hit)
because the reply's trailing text contains the `'是'` character — the
scoring pass never parses the reply structurally. -/
theorem C8_keyword_scoring_counterexample :
    pyIn "是" negJudgeReply = true ∧
    (precStepAB "a" "predict_a" [] [] [⟨"predict_a", "耐打", negJudgeReply⟩]
        emptyTallies "耐打").jingque = 1 ∧
    (precStepAB "a" "predict_a" [] [] [⟨"predict_a", "耐打", negJudgeReply⟩]
        emptyTallies "耐打").fenlei = 1 := by
  refine ⟨by decide, by decide, by decide⟩

/-- C8 amended: stage-2 scoring never parses the cached reply as a
structured object; for a non-`'error'` reply it judges equivalence
solely by presence of the `'是'` token and classification solely by
presence of the `'主观'` token in the raw text, so two replies agreeing
on those keyword tests are scored identically. -/
theorem C8_keyword_only_scoring (zl kl : List String) (t : RowTallies)
    (a res : String)
    (h1 : a ∉ zl) (h2 : a ∉ kl) (hr : res ≠ "error") :
    (pyIn "是" res = true →
      (precStepAB "a" "predict_a" zl kl [⟨"predict_a", a, res⟩] t a).jingque =
        t.jingque + 1) ∧
    (pyIn "是" res = false →
      precStepAB "a" "predict_a" zl kl [⟨"predict_a", a, res⟩] t a = t) ∧
    (∀ res2 : String, res2 ≠ "error" → pyIn "是" res = pyIn "是" res2 →
      pyIn "主观" res = pyIn "主观" res2 →
      precStepAB "a" "predict_a" zl kl [⟨"predict_a", a, res⟩] t a =
        precStepAB "a" "predict_a" zl kl [⟨"predict_a", a, res2⟩] t a) := by
  have hs := lookupConsult_singleton "predict_a" a res
  have hbr : (res != "error") = true := by simp [hr]
  refine ⟨fun hy => ?_, fun hn => ?_, fun res2 hr2 hy hzg => ?_⟩
  · by_cases hzg : pyIn "主观" res = true <;>
      simp [precStepAB, h1, h2, hs, hbr, hy, hzg]
  · simp [precStepAB, h1, h2, hs, hbr, hn, hr]
  · have hs2 := lookupConsult_singleton "predict_a" a res2
    have hbr2 : (res2 != "error") = true := by simp [hr2]
    have hbe : (res == "error") = false := by simp [hr]
    have hbe2 : (res2 == "error") = false := by simp [hr2]
    simp only [precStepAB, if_neg h1, if_neg h2, hs, hs2, hbr, hbr2, hbe, hbe2,
      ← hy, ← hzg, Bool.true_and]

/-- Witness for C8 at a concrete affirmative reply. -/
theorem C8_keyword_only_scoring_witness :
    ("是，主观" : String) ≠ "error" ∧
    (pyIn "是" "是，主观" = true →
      (precStepAB "a" "predict_a" [] [] [⟨"predict_a", "x", "是，主观"⟩]
          emptyTallies "x").jingque = emptyTallies.jingque + 1) :=
  ⟨by decide,
   (C8_keyword_only_scoring [] [] emptyTallies "x" "是，主观"
     (by decide) (by decide) (by decide)).1⟩

/-- C7 counterexample: on a record whose predicted-A cell repeats the
same string, stage 1 logs two consultations with the identical
`(type, value)` key `("predict_a", "x")` at positions 0 and 1. -/
theorem C7_duplicate_key_counterexample :
    (stage_1_row (fun _ _ => "resp") recDupA)[0]? =
      some ⟨"predict_a", "x", "resp"⟩ ∧
    (stage_1_row (fun _ _ => "resp") recDupA)[1]? =
      some ⟨"predict_a", "x", "resp"⟩ ∧
    (0 : Nat) ≠ 1 := by
  refine ⟨by decide, by decide, by decide⟩

/-- C7 amended: for a processed record, the consultation log holds one
entry per occurrence of each unmatched value in each origin list — so
the number of entries with key `(origin, v)` equals the occurrence
count of `v` in that origin's list when `v` has no exact match (and 0
otherwise); duplicate identical strings are queried independently and
yield duplicate keys. -/
theorem C7_consultations_per_occurrence (oracle : String → List String → String)
    (r : Record) (v : String)
    (hcat : pyStrip r.category ∈ TARGET_INDUSTRIES)
    (hne : ¬(parse_f_attribute_string r.F = [] ∧ parse_ab_attribute r.A = [] ∧
        parse_ab_attribute r.B = [] ∧ parse_pred_f_attribute r.pred_F = [] ∧
        parse_ab_attribute r.pred_A = [] ∧ parse_ab_attribute r.pred_B = [])) :
    keyCount (stage_1_row oracle r) "predict_a" v =
      (if v ∈ parse_ab_attribute r.A ++ parse_ab_attribute r.B ∨
          v ∈ parse_f_attribute_string r.F then 0
       else occCount v (parse_ab_attribute r.pred_A)) ∧
    keyCount (stage_1_row oracle r) "predict_b" v =
      (if v ∈ parse_ab_attribute r.A ++ parse_ab_attribute r.B ∨
          v ∈ parse_f_attribute_string r.F then 0
       else occCount v (parse_ab_attribute r.pred_B)) ∧
    keyCount (stage_1_row oracle r) "predict_f" v =
      (if v ∈ parse_ab_attribute r.A ++ parse_ab_attribute r.B ∨
          v ∈ parse_f_attribute_string r.F then 0
       else occCount v (parse_pred_f_attribute r.pred_F)) ∧
    keyCount (stage_1_row oracle r) "label_a" v =
      (if v ∈ parse_ab_attribute r.pred_A ++ parse_ab_attribute r.pred_B ∨
          v ∈ parse_pred_f_attribute r.pred_F then 0
       else occCount v (parse_ab_attribute r.A)) ∧
    keyCount (stage_1_row oracle r) "label_b" v =
      (if v ∈ parse_ab_attribute r.pred_A ++ parse_ab_attribute r.pred_B ∨
          v ∈ parse_pred_f_attribute r.pred_F then 0
       else occCount v (parse_ab_attribute r.B)) ∧
    keyCount (stage_1_row oracle r) "label_f" v =
      (if v ∈ parse_ab_attribute r.pred_A ++ parse_ab_attribute r.pred_B ∨
          v ∈ parse_pred_f_attribute r.pred_F then 0
       else occCount v (parse_f_attribute_string r.F)) := by
  have hrow : stage_1_row oracle r =
      consultList oracle "predict_a" (parse_ab_attribute r.pred_A)
        (parse_ab_attribute r.A ++ parse_ab_attribute r.B) (parse_f_attribute_string r.F) ++
      consultList oracle "predict_b" (parse_ab_attribute r.pred_B)
        (parse_ab_attribute r.A ++ parse_ab_attribute r.B) (parse_f_attribute_string r.F) ++
      consultList oracle "predict_f" (parse_pred_f_attribute r.pred_F)
        (parse_ab_attribute r.A ++ parse_ab_attribute r.B) (parse_f_attribute_string r.F) ++
      consultList oracle "label_a" (parse_ab_attribute r.A)
        (parse_ab_attribute r.pred_A ++ parse_ab_attribute r.pred_B)
        (parse_pred_f_attribute r.pred_F) ++
      consultList oracle "label_b" (parse_ab_attribute r.B)
        (parse_ab_attribute r.pred_A ++ parse_ab_attribute r.pred_B)
        (parse_pred_f_attribute r.pred_F) ++
      consultList oracle "label_f" (parse_f_attribute_string r.F)
        (parse_ab_attribute r.pred_A ++ parse_ab_attribute r.pred_B)
        (parse_pred_f_attribute r.pred_F) := by
    simp only [stage_1_row]
    rw [if_pos hcat, if_neg hne]
  refine ⟨?_, ?_, ?_, ?_, ?_, ?_⟩ <;>
    rw [hrow] <;>
    simp only [keyCount_append, keyCount_consultList,
      keyCount_consultList_ne oracle "predict_a" "predict_b" _ _ _ v (by decide),
      keyCount_consultList_ne oracle "predict_a" "predict_f" _ _ _ v (by decide),
      keyCount_consultList_ne oracle "predict_a" "label_a" _ _ _ v (by decide),
      keyCount_consultList_ne oracle "predict_a" "label_b" _ _ _ v (by decide),
      keyCount_consultList_ne oracle "predict_a" "label_f" _ _ _ v (by decide),
      keyCount_consultList_ne oracle "predict_b" "predict_a" _ _ _ v (by decide),
      keyCount_consultList_ne oracle "predict_b" "predict_f" _ _ _ v (by decide),
      keyCount_consultList_ne oracle "predict_b" "label_a" _ _ _ v (by decide),
      keyCount_consultList_ne oracle "predict_b" "label_b" _ _ _ v (by decide),
      keyCount_consultList_ne oracle "predict_b" "label_f" _ _ _ v (by decide),
      keyCount_consultList_ne oracle "predict_f" "predict_a" _ _ _ v (by decide),
      keyCount_consultList_ne oracle "predict_f" "predict_b" _ _ _ v (by decide),
      keyCount_consultList_ne oracle "predict_f" "label_a" _ _ _ v (by decide),
      keyCount_consultList_ne oracle "predict_f" "label_b" _ _ _ v (by decide),
      keyCount_consultList_ne oracle "predict_f" "label_f" _ _ _ v (by decide),
      keyCount_consultList_ne oracle "label_a" "predict_a" _ _ _ v (by decide),
      keyCount_consultList_ne oracle "label_a" "predict_b" _ _ _ v (by decide),
      keyCount_consultList_ne oracle "label_a" "predict_f" _ _ _ v (by decide),
      keyCount_consultList_ne oracle "label_a" "label_b" _ _ _ v (by decide),
      keyCount_consultList_ne oracle "label_a" "label_f" _ _ _ v (by decide),
      keyCount_consultList_ne oracle "label_b" "predict_a" _ _ _ v (by decide),
      keyCount_consultList_ne oracle "label_b" "predict_b" _ _ _ v (by decide),
      keyCount_consultList_ne oracle "label_b" "predict_f" _ _ _ v (by decide),
      keyCount_consultList_ne oracle "label_b" "label_a" _ _ _ v (by decide),
      keyCount_consultList_ne oracle "label_b" "label_f" _ _ _ v (by decide),
      keyCount_consultList_ne oracle "label_f" "predict_a" _ _ _ v (by decide),
      keyCount_consultList_ne oracle "label_f" "predict_b" _ _ _ v (by decide),
      keyCount_consultList_ne oracle "label_f" "predict_f" _ _ _ v (by decide),
      keyCount_consultList_ne oracle "label_f" "label_a" _ _ _ v (by decide),
      keyCount_consultList_ne oracle "label_f" "label_b" _ _ _ v (by decide),
      Nat.add_zero, Nat.zero_add]

/-- Witness for C7 on the duplicate-A record. -/
theorem C7_consultations_per_occurrence_witness :
    pyStrip recDupA.category ∈ TARGET_INDUSTRIES ∧
    keyCount (stage_1_row (fun _ _ => "resp") recDupA) "predict_a" "x" =
      (if "x" ∈ parse_ab_attribute recDupA.A ++ parse_ab_attribute recDupA.B ∨
          "x" ∈ parse_f_attribute_string recDupA.F then 0
       else occCount "x" (parse_ab_attribute recDupA.pred_A)) :=
  ⟨by decide,
   (C7_consultations_per_occurrence (fun _ _ => "resp") recDupA "x"
     (by decide) (by decide)).1⟩

/-- C2: every processed record adds its predicted item count (A+B+F) to
both the precision and the classification denominator (so these two are
always equal) and its labeled item count to the recall denominator; the
denominators equal the cumulative item counts over non-skipped rows and
are monotonically non-decreasing along any prefix of the run. -/
theorem C2_denominator_invariant (rows pfx : List (Record × List Consultation))
    (hpfx : pfx <+: rows) :
    (stage_2_run rows).jingque_c_all = (stage_2_run rows).fenlei_c_all ∧
    (stage_2_run rows).jingque_c_all = (rows.map rowPredItems).sum ∧
    (stage_2_run rows).zhaohui_c_all = (rows.map rowLabelItems).sum ∧
    (∀ (acc : Totals) (p : Record × List Consultation),
      (stage_2_step acc p).jingque_c_all = acc.jingque_c_all + rowPredItems p ∧
      (stage_2_step acc p).fenlei_c_all = acc.fenlei_c_all + rowPredItems p ∧
      (stage_2_step acc p).zhaohui_c_all = acc.zhaohui_c_all + rowLabelItems p) ∧
    (∀ (r : Record) (log : List Consultation) (rr : RowResult),
      stage_2_row r log = some rr →
      rr.predTotal = (parse_ab_attribute r.pred_A).length +
        (parse_ab_attribute r.pred_B).length + (parse_pred_f_attribute r.pred_F).length ∧
      rr.labelTotal = (parse_ab_attribute r.A).length +
        (parse_ab_attribute r.B).length + (parse_f_attribute_string r.F).length) ∧
    (stage_2_run pfx).jingque_c_all ≤ (stage_2_run rows).jingque_c_all ∧
    (stage_2_run pfx).zhaohui_c_all ≤ (stage_2_run rows).zhaohui_c_all ∧
    (stage_2_run pfx).fenlei_c_all ≤ (stage_2_run rows).fenlei_c_all := by
  obtain ⟨rest, rfl⟩ := hpfx
  obtain ⟨z1, z2, z3⟩ := stage_2_foldl_all (pfx ++ rest) ⟨0, 0, 0, 0, 0, 0⟩
  have hsplit : stage_2_run (pfx ++ rest) = rest.foldl stage_2_step (stage_2_run pfx) := by
    simp [stage_2_run, List.foldl_append]
  obtain ⟨b1, b2, b3⟩ := stage_2_foldl_all rest (stage_2_run pfx)
  refine ⟨?_, ?_, ?_, stage_2_step_all, stage_2_row_totals, ?_, ?_, ?_⟩
  · show ((pfx ++ rest).foldl stage_2_step ⟨0, 0, 0, 0, 0, 0⟩).jingque_c_all =
      ((pfx ++ rest).foldl stage_2_step ⟨0, 0, 0, 0, 0, 0⟩).fenlei_c_all
    rw [z1, z2]
  · show ((pfx ++ rest).foldl stage_2_step ⟨0, 0, 0, 0, 0, 0⟩).jingque_c_all =
      ((pfx ++ rest).map rowPredItems).sum
    rw [z1]
    simp
  · show ((pfx ++ rest).foldl stage_2_step ⟨0, 0, 0, 0, 0, 0⟩).zhaohui_c_all =
      ((pfx ++ rest).map rowLabelItems).sum
    rw [z3]
    simp
  · rw [hsplit, b1]
    exact Nat.le_add_right _ _
  · rw [hsplit, b3]
    exact Nat.le_add_right _ _
  · rw [hsplit, b2]
    exact Nat.le_add_right _ _

/-- Witness for C2 on a one-row run with the empty prefix. -/
theorem C2_denominator_invariant_witness :
    (([] : List (Record × List Consultation)) <+: [(recOverlap, [])]) ∧
    (stage_2_run [(recOverlap, [])]).jingque_c_all =
      (stage_2_run [(recOverlap, [])]).fenlei_c_all :=
  ⟨List.nil_prefix,
   (C2_denominator_invariant [(recOverlap, [])] [] (List.nil_prefix)).1⟩

lemma stage_2_chain (zl kl zp kp : List String) (log : List Consultation)
    (pa pb pf la lb lf : List String)
    (ha : ∀ x ∈ pa, x ∈ zl) (hb : ∀ x ∈ pb, x ∈ zl)
    (hf : ∀ x ∈ pf, x ∉ zl ∧ x ∈ kl)
    (hra : ∀ x ∈ la, x ∈ zp ∨ x ∈ kp) (hrb : ∀ x ∈ lb, x ∈ zp ∨ x ∈ kp)
    (hrf : ∀ x ∈ lf, x ∈ zp ∨ x ∈ kp) :
    lf.foldl (recallStep "f" "label_f" zp kp log)
      (lb.foldl (recallStep "b" "label_b" zp kp log)
        (la.foldl (recallStep "a" "label_a" zp kp log)
          (pf.foldl (precStepF zl kl log)
            (pb.foldl (precStepAB "b" "predict_b" zl kl log)
              (pa.foldl (precStepAB "a" "predict_a" zl kl log) emptyTallies))))) =
      ⟨pa.length + pb.length + pf.length,
       la.length + lb.length + lf.length,
       pa.length + pb.length + pf.length, [], [], []⟩ := by
  rw [foldl_precStepAB_subj _ _ _ _ _ _ _ ha,
    foldl_precStepAB_subj _ _ _ _ _ _ _ hb,
    foldl_precStepF_obj _ _ _ _ _ hf,
    foldl_recallStep_hit _ _ _ _ _ _ _ hra,
    foldl_recallStep_hit _ _ _ _ _ _ _ hrb,
    foldl_recallStep_hit _ _ _ _ _ _ _ hrf]
  simp [emptyTallies]

/-- C1 counterexample: `recOverlap` has identical, non-empty label and
prediction lists in every category (the string `"x"` appearing in both
the F and the A category); stage 1 generates zero consultations and
precision and recall numerators equal their denominators, but the
classification numerator is 1 while its denominator is 2 — the
predicted F-item `"x"` also matches the subjective label list, which
stage 2 counts as a classification error. -/
theorem C1_overlap_counterexample :
    parse_f_attribute_string recOverlap.F = parse_pred_f_attribute recOverlap.pred_F ∧
    parse_ab_attribute recOverlap.A = parse_ab_attribute recOverlap.pred_A ∧
    parse_ab_attribute recOverlap.B = parse_ab_attribute recOverlap.pred_B ∧
    parse_f_attribute_string recOverlap.F ≠ [] ∧
    stage_1_row (fun _ _ => "error") recOverlap = [] ∧
    (stage_2_row recOverlap (stage_1_row (fun _ _ => "error") recOverlap)).map
      (fun rr => (rr.tallies.jingque, rr.tallies.zhaohui, rr.tallies.fenlei,
        rr.predTotal, rr.labelTotal)) = some (2, 2, 1, 2, 2) ∧
    (1 : Nat) ≠ 2 := by
  refine ⟨by decide, by decide, by decide, by decide, by decide, by decide, by decide⟩

/-- C1 amended: for a tracked record whose three label-side lists equal
its three prediction-side lists element-wise, are not all empty, and
whose F list shares no string with the A++B list, stage 1 generates
zero oracle consultations and stage 2 computes precision numerator ==
denominator, recall numerator == denominator and classification
numerator == denominator for that record. -/
theorem C1_identical_disjoint_lists (oracle : String → List String → String)
    (r : Record)
    (hcat : pyStrip r.category ∈ TARGET_INDUSTRIES)
    (hF : parse_pred_f_attribute r.pred_F = parse_f_attribute_string r.F)
    (hA : parse_ab_attribute r.pred_A = parse_ab_attribute r.A)
    (hB : parse_ab_attribute r.pred_B = parse_ab_attribute r.B)
    (hne : parse_f_attribute_string r.F ≠ [] ∨ parse_ab_attribute r.A ≠ [] ∨
        parse_ab_attribute r.B ≠ [])
    (hdisj : ∀ f ∈ parse_f_attribute_string r.F,
        f ∉ parse_ab_attribute r.A ++ parse_ab_attribute r.B) :
    stage_1_row oracle r = [] ∧
    ∃ rr : RowResult, stage_2_row r (stage_1_row oracle r) = some rr ∧
      rr.tallies.jingque = rr.predTotal ∧
      rr.tallies.zhaohui = rr.labelTotal ∧
      rr.tallies.fenlei = rr.predTotal := by
  have hne6 : ¬(parse_f_attribute_string r.F = [] ∧ parse_ab_attribute r.A = [] ∧
      parse_ab_attribute r.B = [] ∧ parse_pred_f_attribute r.pred_F = [] ∧
      parse_ab_attribute r.pred_A = [] ∧ parse_ab_attribute r.pred_B = []) := by
    rcases hne with h | h | h <;> intro hc
    · exact h hc.1
    · exact h hc.2.1
    · exact h hc.2.2.1
  have hpa : ∀ x ∈ parse_ab_attribute r.pred_A,
      x ∈ parse_ab_attribute r.A ++ parse_ab_attribute r.B :=
    fun x hx => List.mem_append_left _ (hA ▸ hx)
  have hpb : ∀ x ∈ parse_ab_attribute r.pred_B,
      x ∈ parse_ab_attribute r.A ++ parse_ab_attribute r.B :=
    fun x hx => List.mem_append_right _ (hB ▸ hx)
  have hpf : ∀ x ∈ parse_pred_f_attribute r.pred_F, x ∈ parse_f_attribute_string r.F :=
    fun x hx => hF ▸ hx
  have hla : ∀ x ∈ parse_ab_attribute r.A,
      x ∈ parse_ab_attribute r.pred_A ++ parse_ab_attribute r.pred_B :=
    fun x hx => List.mem_append_left _ (hA.symm ▸ hx)
  have hlb : ∀ x ∈ parse_ab_attribute r.B,
      x ∈ parse_ab_attribute r.pred_A ++ parse_ab_attribute r.pred_B :=
    fun x hx => List.mem_append_right _ (hB.symm ▸ hx)
  have hlf : ∀ x ∈ parse_f_attribute_string r.F, x ∈ parse_pred_f_attribute r.pred_F :=
    fun x hx => hF.symm ▸ hx
  have h1 : stage_1_row oracle r = [] := by
    simp only [stage_1_row]
    rw [if_pos hcat, if_neg hne6,
      consultList_eq_nil _ _ _ _ _ (fun x hx => Or.inl (hpa x hx)),
      consultList_eq_nil _ _ _ _ _ (fun x hx => Or.inl (hpb x hx)),
      consultList_eq_nil _ _ _ _ _ (fun x hx => Or.inr (hpf x hx)),
      consultList_eq_nil _ _ _ _ _ (fun x hx => Or.inl (hla x hx)),
      consultList_eq_nil _ _ _ _ _ (fun x hx => Or.inl (hlb x hx)),
      consultList_eq_nil _ _ _ _ _ (fun x hx => Or.inr (hlf x hx))]
    rfl
  refine ⟨h1, ?_⟩
  rw [h1]
  simp only [stage_2_row]
  rw [if_pos hcat, if_neg hne6]
  have hchain := stage_2_chain
    (parse_ab_attribute r.A ++ parse_ab_attribute r.B) (parse_f_attribute_string r.F)
    (parse_ab_attribute r.pred_A ++ parse_ab_attribute r.pred_B)
    (parse_pred_f_attribute r.pred_F) []
    (parse_ab_attribute r.pred_A) (parse_ab_attribute r.pred_B)
    (parse_pred_f_attribute r.pred_F)
    (parse_ab_attribute r.A) (parse_ab_attribute r.B) (parse_f_attribute_string r.F)
    hpa hpb (fun x hx => ⟨hdisj x (hpf x hx), hpf x hx⟩)
    (fun x hx => Or.inl (hla x hx)) (fun x hx => Or.inl (hlb x hx))
    (fun x hx => Or.inr (hlf x hx))
  refine ⟨_, rfl, ?_, ?_, ?_⟩ <;> rw [hchain]

/-- Witness for C1 on a record with equal, disjoint label and
prediction lists. -/
theorem C1_identical_disjoint_lists_witness :
    pyStrip recIdent.category ∈ TARGET_INDUSTRIES ∧
    stage_1_row (fun _ _ => "error") recIdent = [] :=
  ⟨by decide,
   (C1_identical_disjoint_lists (fun _ _ => "error") recIdent
     (by decide) (by decide) (by decide) (by decide)
     (Or.inl (by decide)) (by decide)).1⟩
